import Mathlib

/-!
Shallow embedding of the landing-page front-end scripts:
* `src/ab-testing.js` — A/B variant assignment, page mutation, preview mode,
  impression reporting (class `ABTesting`, config `AB_TEST_CONFIG`);
* `src/analytics.js` — scroll-depth tracking (`Analytics.trackScrollDepth`
  and the `scrollTracked` flags initialised in the constructor);
* the form-handler script — phone-number input formatting
  (`FormHandler.setupPhoneNumberFormatting`).

JavaScript objects used as string-keyed maps (`this.variants`,
`this.scrollTracked`, `localStorage`, `URLSearchParams`) are embedded as
association lists; JS object assignment updates an existing key in place and
appends a fresh key, which `setAssoc` mirrors.  `localStorage` may be absent
or throw (private browsing), so the store is either `avail` (functional
key-value map) or `unavailable` (every `getItem`/`setItem` throws); throwing
is `Except.error ()`, matching the fact that the only try/catch around the
A/B initialisation path is the one in the `DOMContentLoaded` handler.
-/

namespace LandPage

/-- First-match association-list lookup (JS object / URLSearchParams read;
`URLSearchParams.get` returns the first value for a repeated key). -/
def getAssoc {α β : Type} [DecidableEq α] : List (α × β) → α → Option β
  | [], _ => none
  | p :: rest, k => if p.1 = k then some p.2 else getAssoc rest k

/-- JS object assignment `o[k] = v`: update an existing key in place,
append a fresh key. -/
def setAssoc {α β : Type} [DecidableEq α] (l : List (α × β)) (k : α) (v : β) :
    List (α × β) :=
  if l.any (fun p => p.1 = k) then
    l.map (fun p => if p.1 = k then (k, v) else p)
  else
    l ++ [(k, v)]

theorem getAssoc_nil {α β : Type} [DecidableEq α] (k : α) :
    getAssoc ([] : List (α × β)) k = none := rfl

theorem getAssoc_cons {α β : Type} [DecidableEq α]
    (p : α × β) (l : List (α × β)) (k : α) :
    getAssoc (p :: l) k = if p.1 = k then some p.2 else getAssoc l k := rfl

theorem getAssoc_map_update_self {α β : Type} [DecidableEq α]
    (l : List (α × β)) (k : α) (v : β)
    (h : l.any (fun p => p.1 = k) = true) :
    getAssoc (l.map (fun p => if p.1 = k then (k, v) else p)) k = some v := by
  induction l with
  | nil => simp at h
  | cons p rest ih =>
    rw [List.map_cons]
    by_cases hp : p.1 = k
    · rw [if_pos hp, getAssoc_cons, if_pos rfl]
    · have hr : rest.any (fun q => q.1 = k) = true := by
        simpa [List.any_cons, hp] using h
      rw [if_neg hp, getAssoc_cons, if_neg hp]
      exact ih hr

theorem getAssoc_map_update_ne {α β : Type} [DecidableEq α]
    (l : List (α × β)) (k k' : α) (v : β) (hne : k' ≠ k) :
    getAssoc (l.map (fun p => if p.1 = k then (k, v) else p)) k' =
      getAssoc l k' := by
  induction l with
  | nil => rfl
  | cons p rest ih =>
    rw [List.map_cons]
    by_cases hp : p.1 = k
    · rw [if_pos hp, getAssoc_cons, getAssoc_cons,
        if_neg (show ¬ (k, v).1 = k' from fun h => hne h.symm),
        if_neg (show ¬ p.1 = k' from fun h => hne (h ▸ hp))]
      exact ih
    · rw [if_neg hp, getAssoc_cons, getAssoc_cons]
      by_cases hpk' : p.1 = k'
      · rw [if_pos hpk', if_pos hpk']
      · rw [if_neg hpk', if_neg hpk']
        exact ih

theorem getAssoc_append_single_self {α β : Type} [DecidableEq α]
    (l : List (α × β)) (k : α) (v : β)
    (h : l.any (fun p => p.1 = k) = false) :
    getAssoc (l ++ [(k, v)]) k = some v := by
  induction l with
  | nil => simp [getAssoc_cons]
  | cons p rest ih =>
    have hp : ¬ p.1 = k := by
      intro hc
      simp [List.any_cons, hc] at h
    have hr : rest.any (fun q => q.1 = k) = false := by
      simpa [List.any_cons, hp] using h
    rw [List.cons_append, getAssoc_cons, if_neg hp]
    exact ih hr

theorem getAssoc_append_single_ne {α β : Type} [DecidableEq α]
    (l : List (α × β)) (k k' : α) (v : β) (hne : k' ≠ k) :
    getAssoc (l ++ [(k, v)]) k' = getAssoc l k' := by
  induction l with
  | nil =>
    rw [List.nil_append, getAssoc_cons,
      if_neg (show ¬ (k, v).1 = k' from fun h => hne h.symm)]
  | cons p rest ih =>
    rw [List.cons_append, getAssoc_cons, getAssoc_cons]
    by_cases hp : p.1 = k'
    · rw [if_pos hp, if_pos hp]
    · rw [if_neg hp, if_neg hp]
      exact ih

theorem getAssoc_setAssoc_self {α β : Type} [DecidableEq α]
    (l : List (α × β)) (k : α) (v : β) :
    getAssoc (setAssoc l k v) k = some v := by
  unfold setAssoc
  by_cases h : l.any (fun p => p.1 = k)
  · rw [if_pos h]; exact getAssoc_map_update_self l k v h
  · rw [if_neg h]
    exact getAssoc_append_single_self l k v (Bool.eq_false_iff.mpr h)

theorem getAssoc_setAssoc_ne {α β : Type} [DecidableEq α]
    (l : List (α × β)) (k k' : α) (v : β) (hne : k' ≠ k) :
    getAssoc (setAssoc l k v) k' = getAssoc l k' := by
  unfold setAssoc
  by_cases h : l.any (fun p => p.1 = k)
  · rw [if_pos h]; exact getAssoc_map_update_ne l k k' v hne
  · rw [if_neg h]; exact getAssoc_append_single_ne l k k' v hne

theorem mem_setAssoc {α β : Type} [DecidableEq α]
    {l : List (α × β)} {k : α} {v : β} {q : α × β}
    (hq : q ∈ setAssoc l k v) : q ∈ l ∨ q = (k, v) := by
  unfold setAssoc at hq
  by_cases ha : l.any (fun p => p.1 = k)
  · rw [if_pos ha] at hq
    rcases List.mem_map.mp hq with ⟨p, hp, hfp⟩
    by_cases hpk : p.1 = k
    · right; rw [if_pos hpk] at hfp; exact hfp.symm
    · left; rw [if_neg hpk] at hfp; exact hfp ▸ hp
  · rw [if_neg ha] at hq
    rcases List.mem_append.mp hq with h | h
    · exact Or.inl h
    · right; simpa using h

theorem setAssoc_not_mem {α β : Type} [DecidableEq α]
    {l : List (α × β)} {k : α} (v : β)
    (h : ∀ p ∈ l, p.1 ≠ k) : setAssoc l k v = l ++ [(k, v)] := by
  have hany : l.any (fun p => p.1 = k) = false := by
    rw [List.any_eq_false]
    intro p hp
    simpa using h p hp
  unfold setAssoc
  rw [hany]
  simp

/-! ## A/B testing configuration and storage (`src/ab-testing.js`) -/

/-- `AB_TEST_CONFIG` from `src/ab-testing.js` (lines 14–23).  `tests` is an
ordered map of test name to the allowed variant labels. -/
structure ABConfig where
  tests : List (String × List String)
  keyNamespace : String
  analyticsEnabled : Bool
deriving DecidableEq, Repr

def AB_TEST_CONFIG : ABConfig :=
  { tests := [("hero_headline", ["A", "B"]),
              ("why_now_text", ["A", "B"]),
              ("cta_button_color", ["blue", "yellow"])]
    keyNamespace := "ab_test_"
    analyticsEnabled := true }

/-- `localStorage`: either a functional key-value store, or unavailable,
in which case every `getItem`/`setItem` call throws. -/
inductive Storage where
  | unavailable : Storage
  | avail : List (String × String) → Storage
deriving DecidableEq, Repr

/-- `localStorage.getItem` (throws when storage is unavailable; `none`
models JS `null`). -/
def Storage.getItem : Storage → String → Except Unit (Option String)
  | .unavailable, _ => .error ()
  | .avail kv, k => .ok (getAssoc kv k)

/-- `localStorage.setItem` (throws when storage is unavailable).  The new
binding is prepended; `getAssoc` reads the first match, so this is
observationally last-write-wins, as in the browser. -/
def Storage.setItem : Storage → String → String → Except Unit Storage
  | .unavailable, _, _ => .error ()
  | .avail kv, k, v => .ok (.avail ((k, v) :: kv))

/-- `this.variants`: insertion-ordered map from test name to assigned
variant label. -/
abbrev Variants := List (String × String)

/-- The URL query string, as the ordered list of (name, value) pairs
`URLSearchParams` iterates. -/
abbrev UrlParams := List (String × String)

/-- The source of randomness: `rand tn n` is the value of
`Math.floor(Math.random() * n)` for the draw made while assigning test
`tn`; the caller's side conditions state `rand tn n < n` for `0 < n`,
which is exactly what `Math.random ∈ [0,1)` guarantees. -/
abbrev RandSrc := String → Nat → Nat

/-- Lines 151–158 of `assignVariant`: random draw, record in
`this.variants`, persist.  (In the JS the map write precedes the
`setItem`; when `setItem` throws the whole initialisation aborts and the
map is discarded, so returning both on success is observationally the
same.) -/
def randomAssign (cfg : ABConfig) (rand : RandSrc) (st : Storage)
    (vs : Variants) (tn : String) (allowed : List String) :
    Except Unit (Storage × Variants) :=
  let randomIndex := rand tn allowed.length
  let selectedVariant := allowed.getD randomIndex ""
  match st.setItem (cfg.keyNamespace ++ tn) selectedVariant with
  | .error e => .error e
  | .ok st2 => .ok (st2, setAssoc vs tn selectedVariant)

/-- Lines 140–158 of `assignVariant`: URL override (`ab_<testName>`)
if present and allowed, otherwise random draw. -/
def urlOrRandom (cfg : ABConfig) (url : UrlParams) (rand : RandSrc)
    (st : Storage) (vs : Variants) (tn : String) (allowed : List String) :
    Except Unit (Storage × Variants) :=
  match getAssoc url ("ab_" ++ tn) with
  | some paramVariant =>
    if paramVariant ∈ allowed then
      match st.setItem (cfg.keyNamespace ++ tn) paramVariant with
      | .error e => .error e
      | .ok st2 => .ok (st2, setAssoc vs tn paramVariant)
    else
      randomAssign cfg rand st vs tn allowed
  | none => randomAssign cfg rand st vs tn allowed

/-- `ABTesting.assignVariant` (lines 132–159): stored value if truthy and
allowed, else URL override, else random draw.  (`initialize` only calls
this with configured test names, for which the lookup succeeds.) -/
def assignVariant (cfg : ABConfig) (url : UrlParams) (rand : RandSrc)
    (st : Storage) (vs : Variants) (tn : String) :
    Except Unit (Storage × Variants) :=
  let allowed := (getAssoc cfg.tests tn).getD []
  match st.getItem (cfg.keyNamespace ++ tn) with
  | .error e => .error e
  | .ok (some storedVariant) =>
    if storedVariant ≠ "" ∧ storedVariant ∈ allowed then
      .ok (st, setAssoc vs tn storedVariant)
    else
      urlOrRandom cfg url rand st vs tn allowed
  | .ok none => urlOrRandom cfg url rand st vs tn allowed

/-- The `Object.keys(this.config.tests).forEach(assignVariant)` loop of
`initialize` (lines 44–47), threading storage and the variants map. -/
def assignLoop (cfg : ABConfig) (url : UrlParams) (rand : RandSrc) :
    List String → Storage → Variants → Except Unit (Storage × Variants)
  | [], st, vs => .ok (st, vs)
  | tn :: rest, st, vs =>
    match assignVariant cfg url rand st vs tn with
    | .error e => .error e
    | .ok (st2, vs2) => assignLoop cfg url rand rest st2 vs2

def assignAll (cfg : ABConfig) (url : UrlParams) (rand : RandSrc)
    (st : Storage) : Except Unit (Storage × Variants) :=
  assignLoop cfg url rand (cfg.tests.map Prod.fst) st []

/-! ## Page model and variant application (`src/ab-testing.js` lines 164–245) -/

/-- Observable state of a page element: attributes, class list, the two
inline style properties the module writes, and its text/HTML content. -/
structure Elem where
  attrs : List (String × String)
  classes : List String
  styleBackground : String
  styleColor : String
  text : String
deriving DecidableEq, Repr

/-- `element.setAttribute(k, v)`. -/
def setAttr (e : Elem) (k v : String) : Elem :=
  { e with attrs := setAssoc e.attrs k v }

/-- `element.classList.add(c)`: a `DOMTokenList` ignores an add of a token
already present. -/
def classAdd (l : List String) (c : String) : List String :=
  if c ∈ l then l else l ++ [c]

/-- `element.classList.remove(c)`. -/
def classRemove (l : List String) (c : String) : List String :=
  l.filter (fun x => x ≠ c)

/-- The elements `src/ab-testing.js` targets: `#hero`, its `.hero__title`,
`#why-now`, `#urgency-final`, the `[data-cta-id]` buttons, plus the
preview indicator appended to `body` (test/variant it displays). -/
structure Page where
  hero : Option Elem
  heroTitle : Option Elem
  whyNow : Option Elem
  urgencyFinal : Option Elem
  ctaButtons : List Elem
  indicator : Option (String × String)
deriving DecidableEq, Repr

/-- A page carrying none of the targeted elements (every lookup misses). -/
def emptyPage : Page :=
  { hero := none, heroTitle := none, whyNow := none, urgencyFinal := none,
    ctaButtons := [], indicator := none }

/-- A concrete page shaped like the landing page's markup: `#hero` with a
`.hero__title`, `#why-now` with `#urgency-final`, and one
`[data-cta-id]` button styled as the primary CTA. -/
def samplePage : Page :=
  { hero := some { attrs := [("id", "hero")], classes := ["hero"],
                   styleBackground := "", styleColor := "", text := "" }
    heroTitle := some { attrs := [], classes := ["hero__title"],
                        styleBackground := "", styleColor := "", text := "" }
    whyNow := some { attrs := [("id", "why-now")], classes := [],
                     styleBackground := "", styleColor := "", text := "" }
    urgencyFinal := some { attrs := [("id", "urgency-final")], classes := [],
                           styleBackground := "", styleColor := "", text := "" }
    ctaButtons := [{ attrs := [("data-cta-id", "hero_primary")],
                     classes := ["btn", "btn--primary"],
                     styleBackground := "", styleColor := "",
                     text := "CTA" }]
    indicator := none }

def heroTitleHtmlB : String :=
  "وقف هدر الفلوس على إعلانات ما تجيب نتيجة… <span class=\"hero__title-highlight\">نضمن الزيادة وإلا ما تدفع</span>"

def heroTitleHtmlA : String :=
  "<span class=\"hero__title-highlight\">نرفع مبيعات مشروعك خلال ٩٠ يوم…</span> وإلا نرجّع رسومنا"

def urgencyFinalTextB : String :=
  "كل أسبوع تأخير = تكاليف أعلى ونمو أبطأ — خلّنا نبدأ بخطة واضحة."

def urgencyFinalTextA : String :=
  "مقاعد الشراكة لهالشهر قربت تكتمل — احجز قبل ما تقفل."

/-- `applyHeroHeadlineVariant` (lines 186–200): skip when `#hero` is
missing; set its `data-variant`; skip the title swap when `.hero__title`
is missing. -/
def applyHeroHeadlineVariant (variant : String) (p : Page) : Page :=
  match p.hero with
  | none => p
  | some heroSection =>
    let heroSection := setAttr heroSection "data-variant" variant
    match p.heroTitle with
    | none => { p with hero := some heroSection }
    | some title =>
      let title :=
        { title with
          text := if variant = "B" then heroTitleHtmlB else heroTitleHtmlA }
      { p with hero := some heroSection, heroTitle := some title }

/-- `applyWhyNowTextVariant` (lines 206–220). -/
def applyWhyNowTextVariant (variant : String) (p : Page) : Page :=
  match p.whyNow with
  | none => p
  | some whyNowSection =>
    let whyNowSection := setAttr whyNowSection "data-variant" variant
    match p.urgencyFinal with
    | none => { p with whyNow := some whyNowSection }
    | some urgencyFinal =>
      let urgencyFinal :=
        { urgencyFinal with
          text :=
            if variant = "B" then urgencyFinalTextB else urgencyFinalTextA }
      { p with whyNow := some whyNowSection, urgencyFinal := some urgencyFinal }

/-- The per-button body of `applyCtaButtonColorVariant` (lines 230–244). -/
def applyCtaButton (variant : String) (button : Elem) : Elem :=
  let button := setAttr button "data-variant" variant
  if variant = "yellow" then
    { button with
      classes := classAdd (classRemove button.classes "btn--primary") "btn--yellow"
      styleBackground := "#F2C526"
      styleColor := "#000" }
  else
    { button with
      classes := classAdd (classRemove button.classes "btn--yellow") "btn--primary"
      styleBackground := ""
      styleColor := "" }

/-- `applyCtaButtonColorVariant` (lines 226–245); the early return on an
empty button list coincides with mapping over the empty list. -/
def applyCtaButtonColorVariant (variant : String) (p : Page) : Page :=
  { p with ctaButtons := p.ctaButtons.map (applyCtaButton variant) }

/-- One iteration of the `switch` in `applyVariants` (lines 164–180);
an unconfigured test name hits no case and leaves the page unchanged. -/
def applyOne (p : Page) (tv : String × String) : Page :=
  if tv.1 = "hero_headline" then applyHeroHeadlineVariant tv.2 p
  else if tv.1 = "why_now_text" then applyWhyNowTextVariant tv.2 p
  else if tv.1 = "cta_button_color" then applyCtaButtonColorVariant tv.2 p
  else p

/-- Observable initialisation steps, recorded in program order: a variant
applied to the page, an impression emitted, the preview indicator added. -/
inductive Action where
  | applyV : String → String → Action
  | impression : String → String → Action
  | indicator : String → String → Action
deriving DecidableEq, Repr

/-- Recogniser for impression actions in a trace. -/
def Action.isImpression : Action → Bool
  | .impression _ _ => true
  | _ => false

/-- `applyVariants` (lines 164–180): iterate `Object.keys(this.variants)`
in insertion order, mutating the page and recording one application step
per entry. -/
def applyVariantsFull (vs : Variants) (p : Page) : Page × List Action :=
  (vs.foldl applyOne p, vs.map (fun tv => Action.applyV tv.1 tv.2))

/-- `trackImpressions` (lines 250–283): bail out when analytics is
disabled, otherwise emit one impression per `this.variants` entry, in
order. -/
def trackImpressions (cfg : ABConfig) (vs : Variants) : List Action :=
  if cfg.analyticsEnabled then
    vs.map (fun tv => Action.impression tv.1 tv.2)
  else []

/-- The entry condition of `handlePreviewMode` (line 63):
`testName && variant && this.config.tests[testName] &&
this.config.tests[testName].includes(variant)`; `params.get` yields JS
`null` for an absent name and the empty string is falsy. -/
def previewValid (cfg : ABConfig) (url : UrlParams) : Bool :=
  match getAssoc url "ab_preview", getAssoc url "variant" with
  | some testName, some variant =>
    decide (testName ≠ "") && decide (variant ≠ "") &&
      (match getAssoc cfg.tests testName with
       | some allowed => decide (variant ∈ allowed)
       | none => false)
  | _, _ => false

/-- `addPreviewIndicator` (lines 79–126): replaces any existing indicator
with one showing the previewed pair. -/
def addPreviewIndicator (p : Page) (testName variant : String) : Page :=
  { p with indicator := some (testName, variant) }

/-- `handlePreviewMode` (lines 59–74): on a valid request persist the
forced choice, record it as the only `this.variants` entry, apply
variants, then add the indicator; otherwise do nothing. -/
def handlePreviewMode (cfg : ABConfig) (url : UrlParams) (st : Storage)
    (p : Page) : Except Unit (Storage × Variants × Page × List Action) :=
  if previewValid cfg url then
    let testName := (getAssoc url "ab_preview").getD ""
    let variant := (getAssoc url "variant").getD ""
    match st.setItem (cfg.keyNamespace ++ testName) variant with
    | .error e => .error e
    | .ok st2 =>
      let vs := setAssoc [] testName variant
      let pa := applyVariantsFull vs p
      .ok (st2, vs, addPreviewIndicator pa.1 testName variant,
        pa.2 ++ [Action.indicator testName variant])
  else
    .ok (st, [], p, [])

/-- `ABTesting.initialize` (lines 36–54): when the `ab_preview` parameter
is present (`URLSearchParams.has`), hand off to preview mode and return;
otherwise assign every configured test, apply the variants, then track
impressions. -/
def initTests (cfg : ABConfig) (url : UrlParams) (rand : RandSrc)
    (st : Storage) (p : Page) :
    Except Unit (Storage × Variants × Page × List Action) :=
  if (getAssoc url "ab_preview").isSome then
    handlePreviewMode cfg url st p
  else
    match assignAll cfg url rand st with
    | .error e => .error e
    | .ok (st2, vs) =>
      let pa := applyVariantsFull vs p
      .ok (st2, vs, pa.1, pa.2 ++ trackImpressions cfg vs)

/-- The `DOMContentLoaded` handler (lines 327–352): `new
ABTesting(AB_TEST_CONFIG)` runs inside a try/catch, so an exception
anywhere in initialisation is caught and logged (`none`) rather than
propagated to the rest of the page. -/
def domInit (cfg : ABConfig) (url : UrlParams) (rand : RandSrc)
    (st : Storage) (p : Page) :
    Option (Storage × Variants × Page × List Action) :=
  match initTests cfg url rand st p with
  | .error _ => none
  | .ok r => some r

/-! ## Analytics scroll-depth tracking (`src/analytics.js`) -/

/-- `ANALYTICS_CONFIG.scrollDepthThresholds` (line 22). -/
def scrollDepthThresholds : List Nat := [25, 50, 75, 100]

/-- The constructor loop (lines 38–41): every configured threshold starts
untracked. -/
def initScrollTracked : List (Nat × Bool) :=
  scrollDepthThresholds.map (fun threshold => (threshold, false))

/-- Read of `this.scrollTracked[threshold]` (an absent key is JS
`undefined`, which is falsy). -/
def trackedGet (tr : List (Nat × Bool)) (threshold : Nat) : Bool :=
  (getAssoc tr threshold).getD false

/-- The `forEach` body of `trackScrollDepth` (lines 231–247): an untracked
threshold that the current scroll percentage has reached is flagged, and
its `scroll_depth` emission is appended to the call's output. -/
def scrollThresholdStep (scrollPercent : Int)
    (acc : List (Nat × Bool) × List Nat) (threshold : Nat) :
    List (Nat × Bool) × List Nat :=
  if trackedGet acc.1 threshold = false ∧ (threshold : Int) ≤ scrollPercent then
    (setAssoc acc.1 threshold true, acc.2 ++ [threshold])
  else acc

/-- `Analytics.trackScrollDepth` (lines 226–262): given the rounded scroll
percentage, walk the thresholds in order; returns the updated flags and
the thresholds emitted by this call. -/
def trackScrollDepth (tr : List (Nat × Bool)) (scrollPercent : Int) :
    List (Nat × Bool) × List Nat :=
  scrollDepthThresholds.foldl (scrollThresholdStep scrollPercent) (tr, [])

/-- One scroll event: the handler calls `trackScrollDepth`, the flags
persist in `this.scrollTracked`, and the load's emissions accumulate. -/
def scrollEventStep (acc : List (Nat × Bool) × List Nat)
    (scrollPercent : Int) : List (Nat × Bool) × List Nat :=
  let r := trackScrollDepth acc.1 scrollPercent
  (r.1, acc.2 ++ r.2)

/-- A page load as the analytics collector sees it: `trackScrollDepth`
fires once per scroll event starting from the constructor's all-false
flags; the result is the concatenation of all `scroll_depth` emissions of
the load. -/
def runScrollEvents (events : List Int) : List (Nat × Bool) × List Nat :=
  events.foldl scrollEventStep (initScrollTracked, [])

/-- Invariant tying the scroll-depth flags to the emissions so far: every
threshold has been emitted at most once, and a threshold whose flag is
still false has not been emitted at all. -/
def ScrollInv (tr : List (Nat × Bool)) (out : List Nat) : Prop :=
  ∀ th, out.count th ≤ 1 ∧ (trackedGet tr th = false → out.count th = 0)

/-! ## Phone-number formatting (`FormHandler.setupPhoneNumberFormatting`) -/

/-- The input handler of `setupPhoneNumberFormatting`, on the field value
as a character list:
`value.replace(/\D/g, '')`, prepend `'0'` when non-empty, insert `'-'`
after index 4 and after index 8 (`substring(8, 12)` keeps at most four
further characters), and finally `substring(0, 12)`. -/
def formatPhone (input : List Char) : List Char :=
  let digits := input.filter Char.isDigit
  let v1 := if 0 < digits.length then '0' :: digits else digits
  let v2 := if 4 < v1.length then v1.take 4 ++ '-' :: v1.drop 4 else v1
  let v3 := if 8 < v2.length then v2.take 8 ++ '-' :: (v2.drop 8).take 4 else v2
  v3.take 12

/-- Positional well-formedness of a formatted phone value, checked from
offset `i`: a `'-'` may occur only at overall index 4 or 8, and every
other character must be a digit. -/
def phoneCharsOk : Nat → List Char → Bool
  | _, [] => true
  | i, c :: rest =>
    (if c = '-' then decide (i = 4 ∨ i = 8) else c.isDigit) &&
      phoneCharsOk (i + 1) rest

/-! ## Lemmas about variant assignment -/

theorem getD_mem_of_lt (l : List String) (i : Nat) (h : i < l.length) :
    l.getD i "" ∈ l := by
  rw [List.getD_eq_getElem?_getD, List.getElem?_eq_getElem h]
  exact List.getElem_mem h

theorem randomAssign_ok_shape {cfg : ABConfig} {rand : RandSrc} {st : Storage}
    {vs : Variants} {tn : String} {allowed : List String}
    {st2 : Storage} {vs2 : Variants}
    (h : randomAssign cfg rand st vs tn allowed = .ok (st2, vs2)) :
    vs2 = setAssoc vs tn (allowed.getD (rand tn allowed.length) "") := by
  cases st with
  | unavailable => simp [randomAssign, Storage.setItem] at h
  | avail kv =>
    simp only [randomAssign, Storage.setItem, Except.ok.injEq,
      Prod.mk.injEq] at h
    exact h.2.symm

theorem urlOrRandom_ok_shape {cfg : ABConfig} {url : UrlParams}
    {rand : RandSrc} {st : Storage} {vs : Variants} {tn : String}
    {allowed : List String} {st2 : Storage} {vs2 : Variants}
    (h : urlOrRandom cfg url rand st vs tn allowed = .ok (st2, vs2)) :
    ∃ v, vs2 = setAssoc vs tn v ∧
      (v ∈ allowed ∨ v = allowed.getD (rand tn allowed.length) "") := by
  unfold urlOrRandom at h
  split at h
  · rename_i pv _
    split at h
    · rename_i hm
      split at h
      · cases h
      · simp only [Except.ok.injEq, Prod.mk.injEq] at h
        exact ⟨pv, h.2.symm, Or.inl hm⟩
    · exact ⟨_, randomAssign_ok_shape h, Or.inr rfl⟩
  · exact ⟨_, randomAssign_ok_shape h, Or.inr rfl⟩

theorem assignVariant_ok_shape {cfg : ABConfig} {url : UrlParams}
    {rand : RandSrc} {st : Storage} {vs : Variants} {tn : String}
    {st2 : Storage} {vs2 : Variants}
    (h : assignVariant cfg url rand st vs tn = .ok (st2, vs2)) :
    ∃ v, vs2 = setAssoc vs tn v ∧
      (v ∈ (getAssoc cfg.tests tn).getD [] ∨
        v = ((getAssoc cfg.tests tn).getD []).getD
          (rand tn ((getAssoc cfg.tests tn).getD []).length) "") := by
  simp only [assignVariant] at h
  split at h
  · cases h
  · rename_i s _
    split at h
    · rename_i hcond
      simp only [Except.ok.injEq, Prod.mk.injEq] at h
      exact ⟨s, h.2.symm, Or.inl hcond.2⟩
    · exact urlOrRandom_ok_shape h
  · exact urlOrRandom_ok_shape h

/-- Success shape of `assignVariant` for a configured test with a
bounded random draw: the variants map gains test `tn` mapped to a member
of its allowed list. -/
theorem assignVariant_ok_mem {cfg : ABConfig} {url : UrlParams}
    {rand : RandSrc} {st : Storage} {vs : Variants} {tn : String}
    {allowed : List String} {st2 : Storage} {vs2 : Variants}
    (hl : getAssoc cfg.tests tn = some allowed)
    (hr : rand tn allowed.length < allowed.length)
    (h : assignVariant cfg url rand st vs tn = .ok (st2, vs2)) :
    ∃ v, v ∈ allowed ∧ vs2 = setAssoc vs tn v := by
  rcases assignVariant_ok_shape h with ⟨v, hvs, hv⟩
  rw [hl] at hv
  simp only [Option.getD_some] at hv
  rcases hv with hv | hv
  · exact ⟨v, hv, hvs⟩
  · exact ⟨v, hv ▸ getD_mem_of_lt allowed _ hr, hvs⟩

/-- Invariant of the `initialize` assignment loop: every entry of the
variants map stays within its test's allowed list. -/
theorem assignLoop_mem {cfg : ABConfig} {url : UrlParams} {rand : RandSrc} :
    ∀ (names : List String) (st : Storage) (vs : Variants)
      (st2 : Storage) (vs2 : Variants),
      (∀ tn ∈ names, ∃ allowed, getAssoc cfg.tests tn = some allowed ∧
        rand tn allowed.length < allowed.length) →
      (∀ q ∈ vs, q.2 ∈ (getAssoc cfg.tests q.1).getD []) →
      assignLoop cfg url rand names st vs = .ok (st2, vs2) →
      ∀ q ∈ vs2, q.2 ∈ (getAssoc cfg.tests q.1).getD []
  | [], st, vs, st2, vs2, _, hinv, h, q, hq => by
    simp only [assignLoop, Except.ok.injEq, Prod.mk.injEq] at h
    rw [← h.2] at hq
    exact hinv q hq
  | tn :: rest, st, vs, st2, vs2, hn, hinv, h, q, hq => by
    simp only [assignLoop] at h
    cases ha : assignVariant cfg url rand st vs tn with
    | error e => rw [ha] at h; cases h
    | ok pr =>
      obtain ⟨st', vs'⟩ := pr
      rw [ha] at h
      rcases hn tn (List.mem_cons_self tn rest) with ⟨allowed, hl, hr⟩
      rcases assignVariant_ok_mem hl hr ha with ⟨v, hvmem, hvs'⟩
      refine assignLoop_mem rest st' vs' st2 vs2
        (fun t ht => hn t (List.mem_cons_of_mem tn ht)) ?_ h q hq
      intro q' hq'
      rcases mem_setAssoc (hvs' ▸ hq') with hq'' | hq''
      · exact hinv q' hq''
      · rw [hq'']
        simpa [hl] using hvmem

/-- Specification of a valid preview request, extracted from the entry
condition of `handlePreviewMode`. -/
theorem previewValid_spec {cfg : ABConfig} {url : UrlParams}
    (h : previewValid cfg url = true) :
    ∃ tn v allowed, getAssoc url "ab_preview" = some tn ∧
      getAssoc url "variant" = some v ∧ tn ≠ "" ∧ v ≠ "" ∧
      getAssoc cfg.tests tn = some allowed ∧ v ∈ allowed := by
  unfold previewValid at h
  split at h
  · rename_i tn v hp hv
    split at h
    · rename_i allowed hl
      simp only [Bool.and_eq_true, decide_eq_true_eq] at h
      exact ⟨tn, v, allowed, hp, hv, h.1.1, h.1.2, hl, h.2⟩
    · simp at h
  · cases h

/-! ## Claims C1–C3 -/

/-- C1: for every configured test, after initialization completes the
resolved variant assigned to that test is a member of that test's
configured allowed variant set, regardless of what value was stored,
supplied via URL parameter, or drawn at random.  (The random source obeys
the bound `Math.floor(Math.random() * n) < n`.) -/
theorem abtest_C1 (url : UrlParams) (rand : RandSrc) (st : Storage)
    (page : Page) (st2 : Storage) (vs : Variants) (p2 : Page)
    (tr : List Action)
    (hr : ∀ tn n, 0 < n → rand tn n < n)
    (h : initTests AB_TEST_CONFIG url rand st page = .ok (st2, vs, p2, tr)) :
    ∀ q ∈ vs, q.2 ∈ (getAssoc AB_TEST_CONFIG.tests q.1).getD [] := by
  unfold initTests at h
  split at h
  · simp only [handlePreviewMode] at h
    split at h
    · rename_i hpv
      rcases previewValid_spec hpv with
        ⟨tn, v, allowed, hp, hv, htn, hvne, hl, hmem⟩
      rw [hp, hv] at h
      simp only [Option.getD_some] at h
      split at h
      · cases h
      · simp only [Except.ok.injEq, Prod.mk.injEq] at h
        intro q hq
        rw [← h.2.1] at hq
        rcases mem_setAssoc hq with hq' | hq'
        · cases hq'
        · rw [hq']
          simpa [hl] using hmem
    · simp only [Except.ok.injEq, Prod.mk.injEq] at h
      intro q hq
      rw [← h.2.1] at hq
      cases hq
  · cases hA : assignAll AB_TEST_CONFIG url rand st with
    | error e => rw [hA] at h; cases h
    | ok pr =>
      obtain ⟨st2', vs'⟩ := pr
      rw [hA] at h
      simp only [Except.ok.injEq, Prod.mk.injEq] at h
      have hside : ∀ tn ∈ AB_TEST_CONFIG.tests.map Prod.fst,
          ∃ allowed, getAssoc AB_TEST_CONFIG.tests tn = some allowed ∧
            rand tn allowed.length < allowed.length := by
        intro tn htn
        simp only [AB_TEST_CONFIG, List.map_cons, List.map_nil,
          List.mem_cons, List.not_mem_nil, or_false] at htn
        rcases htn with rfl | rfl | rfl
        · exact ⟨["A", "B"], rfl, hr _ 2 (by norm_num)⟩
        · exact ⟨["A", "B"], rfl, hr _ 2 (by norm_num)⟩
        · exact ⟨["blue", "yellow"], rfl, hr _ 2 (by norm_num)⟩
      have hmem := assignLoop_mem (AB_TEST_CONFIG.tests.map Prod.fst) st []
        st2' vs' hside (fun q hq => absurd hq (List.not_mem_nil q)) hA
      intro q hq
      rw [← h.2.1] at hq
      exact hmem q hq

theorem abtest_C1_witness :
    ("A" : String) ∈ (getAssoc AB_TEST_CONFIG.tests "hero_headline").getD [] :=
  abtest_C1 [] (fun _ _ => 0) (Storage.avail []) emptyPage
    (Storage.avail [("ab_test_cta_button_color", "blue"),
      ("ab_test_why_now_text", "A"), ("ab_test_hero_headline", "A")])
    [("hero_headline", "A"), ("why_now_text", "A"), ("cta_button_color", "blue")]
    emptyPage
    [Action.applyV "hero_headline" "A", Action.applyV "why_now_text" "A",
      Action.applyV "cta_button_color" "blue",
      Action.impression "hero_headline" "A",
      Action.impression "why_now_text" "A",
      Action.impression "cta_button_color" "blue"]
    (fun _ _ hn => hn) rfl ("hero_headline", "A") (by decide)

/-- C2: for every test with a stored variant that is a member of its
allowed set, resolving without a URL override yields exactly that stored
value, performs no random draw (the result does not depend on the random
source), and performs no write back to storage (the store is returned
unchanged). -/
theorem abtest_C2 (url : UrlParams) (rand : RandSrc)
    (kv : List (String × String)) (vs : Variants) (tn s : String)
    (allowed : List String)
    (hl : getAssoc AB_TEST_CONFIG.tests tn = some allowed)
    (hst : getAssoc kv (AB_TEST_CONFIG.keyNamespace ++ tn) = some s)
    (hne : s ≠ "") (hmem : s ∈ allowed)
    (hurl : getAssoc url ("ab_" ++ tn) = none) :
    assignVariant AB_TEST_CONFIG url rand (Storage.avail kv) vs tn =
      .ok (Storage.avail kv, setAssoc vs tn s) := by
  simp only [assignVariant, Storage.getItem, hst, hl, Option.getD_some]
  rw [if_pos ⟨hne, hmem⟩]

theorem abtest_C2_witness :
    assignVariant AB_TEST_CONFIG [] (fun _ _ => 0)
        (Storage.avail [("ab_test_hero_headline", "B")]) [] "hero_headline" =
      .ok (Storage.avail [("ab_test_hero_headline", "B")],
        [("hero_headline", "B")]) :=
  abtest_C2 [] (fun _ _ => 0) [("ab_test_hero_headline", "B")] []
    "hero_headline" "B" ["A", "B"] (by decide) (by decide) (by decide)
    (by decide) rfl

/-- C3 counterexample: with stored value "X" (not in the allowed set of
hero_headline) and the URL override ab_hero_headline=B present,
resolution adopts the override "B" even though the random draw (index 0
for this source) would be "A" — so assignment does NOT proceed directly
by the uniform random draw, refuting the claim as stated. -/
theorem abtest_C3_counterexample :
    assignVariant AB_TEST_CONFIG [("ab_hero_headline", "B")] (fun _ _ => 0)
        (Storage.avail [("ab_test_hero_headline", "X")]) [] "hero_headline" =
      .ok (Storage.avail [("ab_test_hero_headline", "B"),
          ("ab_test_hero_headline", "X")],
        [("hero_headline", "B")]) ∧
    ["A", "B"].getD ((fun (_ : String) (_ : Nat) => 0) "hero_headline" 2) "" = "A" ∧
    ("B" : String) ≠ "A" :=
  ⟨rfl, rfl, by decide⟩

/-- C3 amended: for every test whose stored variant is not a member of its
currently configured allowed set, and in the absence of a URL override for
that test, assignment discards the stored value and resolves by the
uniform random draw among the current allowed set, persisting the drawn
label; the invalid label is never surfaced as the resolved variant. -/
theorem abtest_C3_amended (url : UrlParams) (rand : RandSrc)
    (kv : List (String × String)) (vs : Variants) (tn s : String)
    (allowed : List String)
    (hl : getAssoc AB_TEST_CONFIG.tests tn = some allowed)
    (hst : getAssoc kv (AB_TEST_CONFIG.keyNamespace ++ tn) = some s)
    (hinv : s ∉ allowed)
    (hurl : getAssoc url ("ab_" ++ tn) = none)
    (hr : rand tn allowed.length < allowed.length) :
    assignVariant AB_TEST_CONFIG url rand (Storage.avail kv) vs tn =
      .ok (Storage.avail ((AB_TEST_CONFIG.keyNamespace ++ tn,
            allowed.getD (rand tn allowed.length) "") :: kv),
        setAssoc vs tn (allowed.getD (rand tn allowed.length) "")) ∧
    allowed.getD (rand tn allowed.length) "" ∈ allowed := by
  constructor
  · simp only [assignVariant, Storage.getItem, hst, hl, Option.getD_some]
    rw [if_neg (fun hc => hinv hc.2)]
    simp only [urlOrRandom, hurl, randomAssign, Storage.setItem]
  · exact getD_mem_of_lt allowed _ hr

theorem assignLoop_keys {cfg : ABConfig} {url : UrlParams} {rand : RandSrc} :
    ∀ (names : List String) (st : Storage) (vs : Variants)
      (st2 : Storage) (vs2 : Variants),
      assignLoop cfg url rand names st vs = .ok (st2, vs2) →
      (∀ tn ∈ names, ∀ q ∈ vs, q.1 ≠ tn) →
      names.Nodup →
      vs2.map Prod.fst = vs.map Prod.fst ++ names
  | [], st, vs, st2, vs2, h, _, _ => by
    simp only [assignLoop, Except.ok.injEq, Prod.mk.injEq] at h
    rw [← h.2]
    simp
  | tn :: rest, st, vs, st2, vs2, h, hfresh, hnd => by
    simp only [assignLoop] at h
    cases ha : assignVariant cfg url rand st vs tn with
    | error e => rw [ha] at h; cases h
    | ok pr =>
      obtain ⟨st', vs'⟩ := pr
      rw [ha] at h
      rcases assignVariant_ok_shape ha with ⟨v, hvs', -⟩
      have happ : vs' = vs ++ [(tn, v)] := by
        rw [hvs']
        exact setAssoc_not_mem v
          (fun q hq => hfresh tn (List.mem_cons_self tn rest) q hq)
      have hnd' := List.nodup_cons.mp hnd
      have hfresh' : ∀ tn' ∈ rest, ∀ q ∈ vs', q.1 ≠ tn' := by
        intro tn' htn' q hq
        rw [happ] at hq
        rcases List.mem_append.mp hq with hq' | hq'
        · exact hfresh tn' (List.mem_cons_of_mem tn htn') q hq'
        · have hqe : q = (tn, v) := by simpa using hq'
          rw [hqe]
          intro hc
          have hc' : tn = tn' := hc
          exact hnd'.1 (hc'.symm ▸ htn')
      have hrec := assignLoop_keys rest st' vs' st2 vs2 h hfresh' hnd'.2
      rw [hrec, happ]
      simp

theorem abtest_C3_amended_witness :
    (assignVariant AB_TEST_CONFIG [] (fun _ _ => 1)
        (Storage.avail [("ab_test_hero_headline", "X")]) [] "hero_headline" =
      .ok (Storage.avail [("ab_test_hero_headline", "B"),
          ("ab_test_hero_headline", "X")],
        [("hero_headline", "B")])) ∧
    ("B" : String) ∈ ["A", "B"] :=
  abtest_C3_amended [] (fun _ _ => 1) [("ab_test_hero_headline", "X")] []
    "hero_headline" "X" ["A", "B"] (by decide) (by decide) (by decide) rfl
    (by decide)

/-! ## Claims C4–C7 -/

/-- C4 counterexample: with the preview parameter present but naming an
unknown test, initialization returns immediately — three tests are
configured, yet none is resolved or applied and no impression is emitted
(the variants map and trace are empty), refuting the claimed fall-through
to Normal mode. -/
theorem abtest_C4_counterexample :
    initTests AB_TEST_CONFIG [("ab_preview", "bogus")] (fun _ _ => 0)
        (Storage.avail []) samplePage =
      .ok (Storage.avail [], [], samplePage, []) ∧
    AB_TEST_CONFIG.tests.map Prod.fst =
      ["hero_headline", "why_now_text", "cta_button_color"] :=
  ⟨rfl, rfl⟩

/-- C4 amended: whenever the preview URL parameter is present but the
preview request is invalid (unknown test, missing variant, or a variant
outside the allowed set), initialization performs no side effect at all:
storage and page are untouched, no variant is resolved or applied, no
impression is emitted, no preview choice is persisted and no indicator is
rendered — in particular it does NOT fall through to Normal-mode
resolution. -/
theorem abtest_C4_amended (url : UrlParams) (rand : RandSrc) (st : Storage)
    (page : Page) (t0 : String)
    (hp : getAssoc url "ab_preview" = some t0)
    (hv : previewValid AB_TEST_CONFIG url = false) :
    initTests AB_TEST_CONFIG url rand st page = .ok (st, [], page, []) := by
  unfold initTests
  rw [if_pos (show (getAssoc url "ab_preview").isSome = true by
    rw [hp]; rfl)]
  unfold handlePreviewMode
  rw [hv]
  simp

theorem abtest_C4_amended_witness :
    initTests AB_TEST_CONFIG [("ab_preview", "bogus"), ("variant", "Z")]
        (fun _ _ => 0) Storage.unavailable samplePage =
      .ok (Storage.unavailable, [], samplePage, []) :=
  abtest_C4_amended [("ab_preview", "bogus"), ("variant", "Z")]
    (fun _ _ => 0) Storage.unavailable samplePage "bogus" rfl (by decide)

/-- C5 counterexample: a successful preview entry for hero_headline=B
resolves and applies ONLY the previewed test: cta_button_color (a
configured test) is absent from the resolved variants map and from the
trace, refuting "every other configured test still receives its
Normal-mode resolution and has its variant applied". -/
theorem abtest_C5_counterexample :
    initTests AB_TEST_CONFIG
        [("ab_preview", "hero_headline"), ("variant", "B")] (fun _ _ => 0)
        (Storage.avail [("ab_test_cta_button_color", "blue")]) emptyPage =
      .ok (Storage.avail [("ab_test_hero_headline", "B"),
          ("ab_test_cta_button_color", "blue")],
        [("hero_headline", "B")],
        { emptyPage with indicator := some ("hero_headline", "B") },
        [Action.applyV "hero_headline" "B",
          Action.indicator "hero_headline" "B"]) ∧
    getAssoc [("hero_headline", "B")] "cta_button_color" = none ∧
    getAssoc AB_TEST_CONFIG.tests "cta_button_color" =
      some ["blue", "yellow"] :=
  ⟨rfl, rfl, rfl⟩

/-- C5 amended: on successful preview entry for test T with variant V,
the forced choice V is persisted and T resolves to V regardless of any
previously stored value; T's variant is applied to the page before the
preview indicator is rendered — but T is the ONLY test resolved and
applied on that load (no Normal-mode resolution for the other configured
tests, and no impressions). -/
theorem abtest_C5_amended (url : UrlParams) (rand : RandSrc)
    (kv : List (String × String)) (page : Page) (tn v : String)
    (allowed : List String)
    (hp : getAssoc url "ab_preview" = some tn)
    (hv : getAssoc url "variant" = some v)
    (htn : tn ≠ "") (hvne : v ≠ "")
    (hl : getAssoc AB_TEST_CONFIG.tests tn = some allowed)
    (hmem : v ∈ allowed) :
    initTests AB_TEST_CONFIG url rand (Storage.avail kv) page =
      .ok (Storage.avail ((AB_TEST_CONFIG.keyNamespace ++ tn, v) :: kv),
        [(tn, v)],
        addPreviewIndicator (applyOne page (tn, v)) tn v,
        [Action.applyV tn v, Action.indicator tn v]) := by
  have hpv : previewValid AB_TEST_CONFIG url = true := by
    simp [previewValid, hp, hv, htn, hvne, hl, hmem]
  unfold initTests
  rw [if_pos (show (getAssoc url "ab_preview").isSome = true by
    rw [hp]; rfl)]
  unfold handlePreviewMode
  rw [hpv]
  simp only [if_true, hp, hv, Option.getD_some, Storage.setItem,
    applyVariantsFull, setAssoc, List.any_nil, List.nil_append,
    List.foldl_cons, List.foldl_nil, List.map_cons, List.map_nil,
    Bool.false_eq_true, if_false]
  rfl

theorem abtest_C5_amended_witness :
    initTests AB_TEST_CONFIG
        [("ab_preview", "why_now_text"), ("variant", "B")] (fun _ _ => 0)
        (Storage.avail [("ab_test_why_now_text", "A")]) samplePage =
      .ok (Storage.avail [("ab_test_why_now_text", "B"),
          ("ab_test_why_now_text", "A")],
        [("why_now_text", "B")],
        addPreviewIndicator (applyOne samplePage ("why_now_text", "B"))
          "why_now_text" "B",
        [Action.applyV "why_now_text" "B",
          Action.indicator "why_now_text" "B"]) :=
  abtest_C5_amended [("ab_preview", "why_now_text"), ("variant", "B")]
    (fun _ _ => 0) [("ab_test_why_now_text", "A")] samplePage
    "why_now_text" "B" ["A", "B"] rfl rfl (by decide) (by decide) rfl
    (by decide)

/-- C6 counterexample: on a page load whose URL carries a valid preview
request, the trace contains NO impression action at all although three
tests are configured — refuting "on every page load, exactly one
impression event is emitted per configured test". -/
theorem abtest_C6_counterexample :
    initTests AB_TEST_CONFIG
        [("ab_preview", "why_now_text"), ("variant", "A")] (fun _ _ => 0)
        (Storage.avail []) emptyPage =
      .ok (Storage.avail [("ab_test_why_now_text", "A")],
        [("why_now_text", "A")],
        { emptyPage with indicator := some ("why_now_text", "A") },
        [Action.applyV "why_now_text" "A",
          Action.indicator "why_now_text" "A"]) ∧
    ([Action.applyV "why_now_text" "A",
      Action.indicator "why_now_text" "A"].countP Action.isImpression) = 0 ∧
    AB_TEST_CONFIG.tests.length = 3 :=
  ⟨rfl, rfl, rfl⟩

/-- C6 amended: on every page load that does not carry the preview URL
parameter and whose initialization completes, the trace is exactly the
per-test variant applications followed by exactly one impression per
resolved test carrying (test name, variant label) — so every impression
comes after all applications — and the resolved tests are exactly the
configured tests, in configuration order. -/
theorem abtest_C6_amended (url : UrlParams) (rand : RandSrc) (st : Storage)
    (page : Page) (st2 : Storage) (vs : Variants) (p2 : Page)
    (tr : List Action)
    (hnp : getAssoc url "ab_preview" = none)
    (h : initTests AB_TEST_CONFIG url rand st page = .ok (st2, vs, p2, tr)) :
    tr = vs.map (fun tv => Action.applyV tv.1 tv.2) ++
        vs.map (fun tv => Action.impression tv.1 tv.2) ∧
    vs.map Prod.fst = AB_TEST_CONFIG.tests.map Prod.fst := by
  unfold initTests at h
  rw [if_neg (by rw [hnp]; simp)] at h
  cases hA : assignAll AB_TEST_CONFIG url rand st with
  | error e => rw [hA] at h; cases h
  | ok pr =>
    obtain ⟨st2', vs'⟩ := pr
    rw [hA] at h
    simp only [applyVariantsFull, Except.ok.injEq, Prod.mk.injEq] at h
    obtain ⟨h1, h2, h3, h4⟩ := h
    constructor
    · rw [← h4, ← h2]
      rfl
    · have hkeys := assignLoop_keys
        (AB_TEST_CONFIG.tests.map Prod.fst) st [] st2' vs' hA
        (fun tn _ q hq => absurd hq (List.not_mem_nil q)) (by decide)
      rw [← h2, hkeys]
      simp

theorem abtest_C6_amended_witness :
    ([Action.applyV "hero_headline" "A", Action.applyV "why_now_text" "A",
      Action.applyV "cta_button_color" "blue",
      Action.impression "hero_headline" "A",
      Action.impression "why_now_text" "A",
      Action.impression "cta_button_color" "blue"] =
      ([("hero_headline", "A"), ("why_now_text", "A"),
        ("cta_button_color", "blue")].map
          (fun tv => Action.applyV tv.1 tv.2)) ++
      ([("hero_headline", "A"), ("why_now_text", "A"),
        ("cta_button_color", "blue")].map
          (fun tv => Action.impression tv.1 tv.2))) ∧
    [("hero_headline", "A"), ("why_now_text", "A"),
      ("cta_button_color", "blue")].map Prod.fst =
      AB_TEST_CONFIG.tests.map Prod.fst :=
  abtest_C6_amended [] (fun _ _ => 0) (Storage.avail []) emptyPage
    (Storage.avail [("ab_test_cta_button_color", "blue"),
      ("ab_test_why_now_text", "A"), ("ab_test_hero_headline", "A")])
    [("hero_headline", "A"), ("why_now_text", "A"),
      ("cta_button_color", "blue")]
    emptyPage
    [Action.applyV "hero_headline" "A", Action.applyV "why_now_text" "A",
      Action.applyV "cta_button_color" "blue",
      Action.impression "hero_headline" "A",
      Action.impression "why_now_text" "A",
      Action.impression "cta_button_color" "blue"]
    rfl rfl

/-- C7 counterexample: with the durable store unavailable (its get/set
throw), initialization aborts with the exception instead of completing
the assignment of the three configured tests via the random draw —
refuting "the failure … does not prevent variant application or
impression reporting for any test". -/
theorem abtest_C7_counterexample :
    initTests AB_TEST_CONFIG [] (fun _ _ => 0) Storage.unavailable
        emptyPage = .error () ∧
    AB_TEST_CONFIG.tests.length = 3 :=
  ⟨rfl, rfl⟩

/-- C7 amended: when the durable store is unavailable (its get/set
operations throw) and no preview parameter is present, the first storage
read aborts the whole A/B initialization — no variant is assigned or
applied and no impression is emitted for any test; the try/catch in the
DOMContentLoaded handler contains the exception (the failure is logged,
not propagated to other page scripts). -/
theorem abtest_C7_amended (url : UrlParams) (rand : RandSrc) (page : Page)
    (hnp : getAssoc url "ab_preview" = none) :
    initTests AB_TEST_CONFIG url rand Storage.unavailable page =
      .error () ∧
    domInit AB_TEST_CONFIG url rand Storage.unavailable page = none := by
  have h1 : initTests AB_TEST_CONFIG url rand Storage.unavailable page =
      .error () := by
    unfold initTests
    rw [if_neg (by rw [hnp]; simp)]
    rfl
  exact ⟨h1, by simp only [domInit, h1]⟩

theorem abtest_C7_amended_witness :
    (initTests AB_TEST_CONFIG [("utm_source", "x")] (fun _ _ => 1)
        Storage.unavailable samplePage = .error ()) ∧
    domInit AB_TEST_CONFIG [("utm_source", "x")] (fun _ _ => 1)
        Storage.unavailable samplePage = none :=
  abtest_C7_amended [("utm_source", "x")] (fun _ _ => 1) samplePage rfl

/-! ## Claim C8: idempotence of variant application -/

theorem list_map_eq_self {α : Type} (f : α → α) :
    ∀ (l : List α), (∀ a ∈ l, f a = a) → l.map f = l
  | [], _ => rfl
  | a :: rest, h => by
    rw [List.map_cons, h a (List.mem_cons_self a rest),
      list_map_eq_self f rest (fun b hb => h b (List.mem_cons_of_mem a hb))]

theorem list_map_congr {α β : Type} (f g : α → β) :
    ∀ (l : List α), (∀ a ∈ l, f a = g a) → l.map f = l.map g
  | [], _ => rfl
  | a :: rest, h => by
    rw [List.map_cons, List.map_cons, h a (List.mem_cons_self a rest),
      list_map_congr f g rest (fun b hb => h b (List.mem_cons_of_mem a hb))]

theorem setAssoc_any_self {α β : Type} [DecidableEq α]
    (l : List (α × β)) (k : α) (v : β) :
    (setAssoc l k v).any (fun p => p.1 = k) = true := by
  unfold setAssoc
  by_cases h : l.any (fun p => p.1 = k)
  · rw [if_pos h]
    rw [List.any_eq_true] at h ⊢
    rcases h with ⟨p, hp, hpk⟩
    refine ⟨(k, v), List.mem_map.mpr ⟨p, hp, ?_⟩, by simp⟩
    rw [if_pos (by simpa using hpk)]
  · rw [if_neg h]
    rw [List.any_eq_true]
    exact ⟨(k, v), List.mem_append.mpr (Or.inr (by simp)), by simp⟩

theorem mem_setAssoc_key {α β : Type} [DecidableEq α]
    {l : List (α × β)} {k : α} {v : β} {q : α × β}
    (hq : q ∈ setAssoc l k v) (hk : q.1 = k) : q = (k, v) := by
  unfold setAssoc at hq
  by_cases h : l.any (fun p => p.1 = k)
  · rw [if_pos h] at hq
    rcases List.mem_map.mp hq with ⟨p, hp, hfp⟩
    by_cases hpk : p.1 = k
    · rw [if_pos hpk] at hfp
      exact hfp.symm
    · rw [if_neg hpk] at hfp
      subst hfp
      exact absurd hk hpk
  · rw [if_neg h] at hq
    rcases List.mem_append.mp hq with hq' | hq'
    · exact absurd (List.any_eq_true.mpr ⟨q, hq', by simpa using hk⟩) h
    · simpa using hq'

theorem setAssoc_idem {α β : Type} [DecidableEq α]
    (l : List (α × β)) (k : α) (v : β) :
    setAssoc (setAssoc l k v) k v = setAssoc l k v := by
  have hany := setAssoc_any_self l k v
  rw [setAssoc, hany, if_pos rfl]
  exact list_map_eq_self _ _ (fun q hq => by
    by_cases hk : q.1 = k
    · rw [if_pos hk, mem_setAssoc_key hq hk]
    · rw [if_neg hk])

theorem setAttr_idem (e : Elem) (k v : String) :
    setAttr (setAttr e k v) k v = setAttr e k v := by
  simp [setAttr, setAssoc_idem]

theorem mem_classAdd {l : List String} {c x : String} :
    x ∈ classAdd l c ↔ x ∈ l ∨ x = c := by
  unfold classAdd
  by_cases h : c ∈ l
  · rw [if_pos h]
    constructor
    · exact Or.inl
    · rintro (hx | rfl)
      · exact hx
      · exact h
  · rw [if_neg h]
    simp

theorem classAdd_of_mem {l : List String} {c : String} (h : c ∈ l) :
    classAdd l c = l := by
  unfold classAdd
  rw [if_pos h]

theorem self_mem_classAdd (l : List String) (c : String) :
    c ∈ classAdd l c := by
  unfold classAdd
  by_cases h : c ∈ l
  · rw [if_pos h]
    exact h
  · rw [if_neg h]
    simp

theorem not_mem_classRemove (l : List String) (c : String) :
    c ∉ classRemove l c := by
  intro h
  have := (List.mem_filter.mp h).2
  simp at this

theorem classRemove_of_not_mem {l : List String} {c : String} (h : c ∉ l) :
    classRemove l c = l := by
  unfold classRemove
  apply List.filter_eq_self.mpr
  intro a ha
  have hne : a ≠ c := fun he => h (he ▸ ha)
  simpa using hne

theorem applyHeroHeadlineVariant_idem (v : String) (p : Page) :
    applyHeroHeadlineVariant v (applyHeroHeadlineVariant v p) =
      applyHeroHeadlineVariant v p := by
  obtain ⟨hero, heroTitle, whyNow, urgencyFinal, ctaButtons, indicator⟩ := p
  cases hero with
  | none => rfl
  | some h =>
    cases heroTitle with
    | none => simp only [applyHeroHeadlineVariant, setAttr_idem]
    | some title => simp only [applyHeroHeadlineVariant, setAttr_idem]

theorem applyWhyNowTextVariant_idem (v : String) (p : Page) :
    applyWhyNowTextVariant v (applyWhyNowTextVariant v p) =
      applyWhyNowTextVariant v p := by
  obtain ⟨hero, heroTitle, whyNow, urgencyFinal, ctaButtons, indicator⟩ := p
  cases whyNow with
  | none => rfl
  | some section0 =>
    cases urgencyFinal with
    | none => simp only [applyWhyNowTextVariant, setAttr_idem]
    | some urg => simp only [applyWhyNowTextVariant, setAttr_idem]

theorem applyCtaButton_idem (v : String) (b : Elem) :
    applyCtaButton v (applyCtaButton v b) = applyCtaButton v b := by
  obtain ⟨attrs, classes, bg, color, text⟩ := b
  by_cases hv : v = "yellow"
  · subst hv
    have h1 : "btn--primary" ∉
        classAdd (classRemove classes "btn--primary") "btn--yellow" := by
      intro hmem
      rcases mem_classAdd.mp hmem with h' | h'
      · exact not_mem_classRemove _ _ h'
      · exact absurd h' (by decide)
    simp [applyCtaButton, setAttr, setAssoc_idem, classRemove_of_not_mem h1,
      classAdd_of_mem (self_mem_classAdd
        (classRemove classes "btn--primary") "btn--yellow")]
  · have h1 : "btn--yellow" ∉
        classAdd (classRemove classes "btn--yellow") "btn--primary" := by
      intro hmem
      rcases mem_classAdd.mp hmem with h' | h'
      · exact not_mem_classRemove _ _ h'
      · exact absurd h' (by decide)
    simp [applyCtaButton, setAttr, hv, setAssoc_idem,
      classRemove_of_not_mem h1,
      classAdd_of_mem (self_mem_classAdd
        (classRemove classes "btn--yellow") "btn--primary")]

theorem applyCtaButtonColorVariant_idem (v : String) (p : Page) :
    applyCtaButtonColorVariant v (applyCtaButtonColorVariant v p) =
      applyCtaButtonColorVariant v p := by
  obtain ⟨hero, heroTitle, whyNow, urgencyFinal, ctaButtons, indicator⟩ := p
  simp only [applyCtaButtonColorVariant, List.map_map]
  rw [list_map_congr (applyCtaButton v ∘ applyCtaButton v) (applyCtaButton v)
    ctaButtons (fun b _ => applyCtaButton_idem v b)]

/-- C8: for every configured test and every variant in its allowed set,
applying that (test, variant) pair twice in succession leaves the
targeted elements in exactly the same observable state (text content,
attributes, class membership, inline style) as applying it once. -/
theorem abtest_C8 (t : String) (allowed : List String) (v : String)
    (p : Page)
    (ht : (t, allowed) ∈ AB_TEST_CONFIG.tests) (hv : v ∈ allowed) :
    applyOne (applyOne p (t, v)) (t, v) = applyOne p (t, v) := by
  simp only [AB_TEST_CONFIG, List.mem_cons, List.not_mem_nil, or_false,
    Prod.mk.injEq] at ht
  rcases ht with ⟨rfl, rfl⟩ | ⟨rfl, rfl⟩ | ⟨rfl, rfl⟩
  · simpa [applyOne] using applyHeroHeadlineVariant_idem v p
  · simpa [applyOne] using applyWhyNowTextVariant_idem v p
  · simpa [applyOne] using applyCtaButtonColorVariant_idem v p

theorem abtest_C8_witness :
    applyOne (applyOne samplePage ("cta_button_color", "yellow"))
        ("cta_button_color", "yellow") =
      applyOne samplePage ("cta_button_color", "yellow") :=
  abtest_C8 "cta_button_color" ["blue", "yellow"] "yellow" samplePage
    (by decide) (by decide)

/-! ## Claim C9: scroll-depth thresholds fire at most once per load -/

theorem trackedGet_setAssoc_self (tr : List (Nat × Bool)) (th : Nat)
    (b : Bool) : trackedGet (setAssoc tr th b) th = b := by
  simp [trackedGet, getAssoc_setAssoc_self]

theorem trackedGet_setAssoc_ne (tr : List (Nat × Bool)) (th th' : Nat)
    (b : Bool) (h : th' ≠ th) :
    trackedGet (setAssoc tr th b) th' = trackedGet tr th' := by
  simp [trackedGet, getAssoc_setAssoc_ne _ _ _ _ h]

theorem scrollThresholdStep_inv (p : Int) (out : List Nat)
    (acc : List (Nat × Bool) × List Nat) (th0 : Nat)
    (h : ScrollInv acc.1 (out ++ acc.2)) :
    ScrollInv (scrollThresholdStep p acc th0).1
      (out ++ (scrollThresholdStep p acc th0).2) := by
  unfold scrollThresholdStep
  split
  · rename_i hcond
    intro th
    by_cases hth : th = th0
    · subst hth
      refine ⟨?_, ?_⟩
      · rw [← List.append_assoc, List.count_append, (h th).2 hcond.1]
        simp
      · intro hfalse
        rw [trackedGet_setAssoc_self] at hfalse
        cases hfalse
    · have hz : List.count th [th0] = 0 :=
        List.count_eq_zero.mpr (by simp [hth])
      refine ⟨?_, ?_⟩
      · rw [← List.append_assoc, List.count_append, hz]
        simpa using (h th).1
      · intro hf
        rw [trackedGet_setAssoc_ne _ _ _ _ hth] at hf
        rw [← List.append_assoc, List.count_append, (h th).2 hf, hz]
  · exact h

theorem scrollFold_inv (p : Int) (out : List Nat) :
    ∀ (ths : List Nat) (acc : List (Nat × Bool) × List Nat),
      ScrollInv acc.1 (out ++ acc.2) →
      ScrollInv (ths.foldl (scrollThresholdStep p) acc).1
        (out ++ (ths.foldl (scrollThresholdStep p) acc).2)
  | [], _, h => h
  | th0 :: rest, acc, h => by
    rw [List.foldl_cons]
    exact scrollFold_inv p out rest _ (scrollThresholdStep_inv p out acc th0 h)

theorem trackScrollDepth_inv (tr : List (Nat × Bool)) (out : List Nat)
    (p : Int) (h : ScrollInv tr out) :
    ScrollInv (trackScrollDepth tr p).1
      (out ++ (trackScrollDepth tr p).2) := by
  unfold trackScrollDepth
  exact scrollFold_inv p out scrollDepthThresholds (tr, []) (by simpa using h)

theorem runScrollFold_inv :
    ∀ (events : List Int) (acc : List (Nat × Bool) × List Nat),
      ScrollInv acc.1 acc.2 →
      ScrollInv (events.foldl scrollEventStep acc).1
        (events.foldl scrollEventStep acc).2
  | [], _, h => h
  | p :: rest, acc, h => by
    rw [List.foldl_cons]
    exact runScrollFold_inv rest _ (trackScrollDepth_inv acc.1 acc.2 p h)

/-- C9: for each configured scroll-depth threshold, the analytics
collector emits the scroll_depth event for that threshold at most once
per page load — over any sequence of scroll events starting from the
constructor's all-false flags, each threshold occurs at most once among
the emissions, because a threshold's tracked flag is set when first
reached and never re-emitted afterwards. -/
theorem analytics_C9 : ∀ (events : List Int) (th : Nat),
    ((runScrollEvents events).2).count th ≤ 1 := by
  intro events th
  have hbase : ScrollInv initScrollTracked [] := by
    intro t
    exact ⟨by simp, fun _ => by simp⟩
  exact (runScrollFold_inv events (initScrollTracked, []) hbase th).1

theorem analytics_C9_witness :
    ((runScrollEvents [30, 60, 60, 110]).2).count 50 ≤ 1 :=
  analytics_C9 [30, 60, 60, 110] 50

/-! ## Claim C10: the phone-number formatter -/

theorem phoneCharsOk_cons (i : Nat) (c : Char) (rest : List Char) :
    phoneCharsOk i (c :: rest) =
      ((if c = '-' then decide (i = 4 ∨ i = 8) else c.isDigit) &&
        phoneCharsOk (i + 1) rest) := rfl

theorem digit_ne_dash {c : Char} (h : c.isDigit = true) : ¬ c = '-' := by
  intro he
  rw [he] at h
  exact absurd h (by decide)

theorem phoneCharsOk_digits : ∀ (cs : List Char) (i : Nat),
    (∀ c ∈ cs, c.isDigit = true) → phoneCharsOk i cs = true
  | [], _, _ => rfl
  | c :: rest, i, h => by
    have hc := h c (List.mem_cons_self c rest)
    rw [phoneCharsOk_cons, if_neg (digit_ne_dash hc), hc,
      phoneCharsOk_digits rest (i + 1)
        (fun b hb => h b (List.mem_cons_of_mem c hb))]
    rfl

theorem phoneCharsOk_mid {a b c : Char} {rest : List Char}
    (ha : a.isDigit = true) (hb : b.isDigit = true) (hc : c.isDigit = true)
    (hrest : ∀ x ∈ rest, x.isDigit = true) :
    phoneCharsOk 0 ('0' :: a :: b :: c :: '-' :: rest) = true := by
  rw [phoneCharsOk_cons, phoneCharsOk_cons, phoneCharsOk_cons,
    phoneCharsOk_cons, phoneCharsOk_cons]
  rw [if_neg (by decide), if_neg (digit_ne_dash ha),
    if_neg (digit_ne_dash hb), if_neg (digit_ne_dash hc), if_pos rfl]
  rw [ha, hb, hc, phoneCharsOk_digits rest 5 hrest]
  rfl

theorem phoneCharsOk_large {a b c e f g h7 : Char} {rest : List Char}
    (ha : a.isDigit = true) (hb : b.isDigit = true) (hc : c.isDigit = true)
    (he : e.isDigit = true) (hf : f.isDigit = true) (hg : g.isDigit = true)
    (hh : h7.isDigit = true)
    (hrest : ∀ x ∈ rest, x.isDigit = true) :
    phoneCharsOk 0
      ('0' :: a :: b :: c :: '-' :: e :: f :: g :: '-' :: h7 :: rest) =
      true := by
  rw [phoneCharsOk_cons, phoneCharsOk_cons, phoneCharsOk_cons,
    phoneCharsOk_cons, phoneCharsOk_cons, phoneCharsOk_cons,
    phoneCharsOk_cons, phoneCharsOk_cons, phoneCharsOk_cons,
    phoneCharsOk_cons]
  rw [if_neg (by decide), if_neg (digit_ne_dash ha),
    if_neg (digit_ne_dash hb), if_neg (digit_ne_dash hc), if_pos rfl,
    if_neg (digit_ne_dash he), if_neg (digit_ne_dash hf),
    if_neg (digit_ne_dash hg), if_pos rfl, if_neg (digit_ne_dash hh)]
  rw [ha, hb, hc, he, hf, hg, hh, phoneCharsOk_digits rest 10 hrest]
  rfl

theorem formatPhone_eq_nil {input : List Char}
    (hd : input.filter Char.isDigit = []) : formatPhone input = [] := by
  simp only [formatPhone]
  rw [hd]
  rfl

theorem formatPhone_eq_small {input d : List Char}
    (hd : input.filter Char.isDigit = d) (h1 : d ≠ []) (h2 : d.length ≤ 3) :
    formatPhone input = '0' :: d := by
  simp only [formatPhone]
  rw [hd]
  rw [if_pos (List.length_pos.mpr h1)]
  rw [if_neg (show ¬ 4 < ('0' :: d).length by
    simp only [List.length_cons]; omega)]
  rw [if_neg (show ¬ 8 < ('0' :: d).length by
    simp only [List.length_cons]; omega)]
  exact List.take_of_length_le (by simp only [List.length_cons]; omega)

theorem formatPhone_eq_mid {input : List Char} {a b c : Char}
    {rest : List Char}
    (hd : input.filter Char.isDigit = a :: b :: c :: rest) (h1 : rest ≠ [])
    (h2 : rest.length ≤ 3) :
    formatPhone input = '0' :: a :: b :: c :: '-' :: rest := by
  have hpos := List.length_pos.mpr h1
  simp only [formatPhone]
  rw [hd]
  rw [if_pos (show 0 < (a :: b :: c :: rest).length by simp)]
  rw [if_pos (show 4 < ('0' :: a :: b :: c :: rest).length by
    simp only [List.length_cons]; omega)]
  have hcond : ¬ 8 < (('0' :: a :: b :: c :: rest).take 4 ++
      '-' :: ('0' :: a :: b :: c :: rest).drop 4).length := by
    change ¬ 8 < ('0' :: a :: b :: c :: '-' :: rest).length
    simp only [List.length_cons]
    omega
  rw [if_neg hcond]
  have hlen12 : (('0' :: a :: b :: c :: rest).take 4 ++
      '-' :: ('0' :: a :: b :: c :: rest).drop 4).length ≤ 12 := by
    change ('0' :: a :: b :: c :: '-' :: rest).length ≤ 12
    simp only [List.length_cons]
    omega
  exact List.take_of_length_le hlen12

theorem formatPhone_eq_large {input : List Char} {a b c e f g h7 : Char}
    {rest : List Char}
    (hd : input.filter Char.isDigit =
      a :: b :: c :: e :: f :: g :: h7 :: rest) :
    formatPhone input =
      '0' :: a :: b :: c :: '-' :: e :: f :: g :: '-' :: h7 ::
        rest.take 2 := by
  simp only [formatPhone]
  rw [hd]
  rw [if_pos (show 0 < (a :: b :: c :: e :: f :: g :: h7 :: rest).length by
    simp)]
  rw [if_pos (show 4 < ('0' :: a :: b :: c :: e :: f :: g :: h7 ::
      rest).length by simp only [List.length_cons]; omega)]
  have hcond : 8 < (('0' :: a :: b :: c :: e :: f :: g :: h7 ::
      rest).take 4 ++ '-' :: ('0' :: a :: b :: c :: e :: f :: g :: h7 ::
        rest).drop 4).length := by
    change 8 < ('0' :: a :: b :: c :: '-' :: e :: f :: g :: h7 ::
      rest).length
    simp only [List.length_cons]
    omega
  rw [if_pos hcond]
  show '0' :: a :: b :: c :: '-' :: e :: f :: g :: '-' :: h7 ::
      ((rest.take 3).take 2) =
    '0' :: a :: b :: c :: '-' :: e :: f :: g :: '-' :: h7 :: rest.take 2
  rw [List.take_take]
  norm_num

/-- C10: for every input string, the phone-number formatter produces a
field value of length at most 12 that is empty exactly when the input
contains no digit characters; a non-empty result starts with '0', every
'-' in it occurs only at index 4 or index 8, and every other character is
a digit. -/
theorem form_C10 (input : List Char) :
    (formatPhone input).length ≤ 12 ∧
    (formatPhone input = [] ↔ (∀ c ∈ input, c.isDigit = false)) ∧
    phoneCharsOk 0 (formatPhone input) = true ∧
    (formatPhone input ≠ [] → (formatPhone input).head? = some '0') := by
  have hnil : input.filter Char.isDigit = [] ↔
      (∀ c ∈ input, c.isDigit = false) := by
    rw [List.filter_eq_nil_iff]
    constructor
    · intro h c hc
      simpa using h c hc
    · intro h c hc
      simp [h c hc]
  obtain ⟨d, hd⟩ : ∃ d, input.filter Char.isDigit = d := ⟨_, rfl⟩
  have hdig : ∀ c ∈ d, c.isDigit = true := fun c hc =>
    (List.mem_filter.mp (hd ▸ hc)).2
  rw [hd] at hnil
  rcases d with _ | ⟨a, rest1⟩
  · have hr := formatPhone_eq_nil hd
    refine ⟨by rw [hr]; simp, ?_, by rw [hr]; rfl, by rw [hr]; simp⟩
    rw [hr]
    exact iff_of_true rfl (hnil.mp rfl)
  · have hsmall : ∀ (dl : List Char), input.filter Char.isDigit = dl →
        dl ≠ [] → dl.length ≤ 3 → (∀ c ∈ dl, c.isDigit = true) →
        (formatPhone input).length ≤ 12 ∧
        (formatPhone input = [] ↔ (∀ c ∈ input, c.isDigit = false)) ∧
        phoneCharsOk 0 (formatPhone input) = true ∧
        (formatPhone input ≠ [] → (formatPhone input).head? = some '0') := by
      intro dl hdl h1 h2 hdigl
      have hr := formatPhone_eq_small hdl h1 h2
      refine ⟨by rw [hr]; simp only [List.length_cons]; omega, ?_, ?_,
        fun _ => by rw [hr]; rfl⟩
      · rw [hr]
        refine iff_of_false (by simp) (fun hall => h1 ?_)
        rw [← hd] at hnil
        rw [← hdl, hnil]
        exact hall
      · rw [hr]
        refine phoneCharsOk_digits _ 0 ?_
        intro x hx
        rcases List.mem_cons.mp hx with rfl | hx'
        · rfl
        · exact hdigl x hx'
    rcases rest1 with _ | ⟨b, rest2⟩
    · exact hsmall [a] hd (by simp) (by simp) hdig
    · rcases rest2 with _ | ⟨c, rest3⟩
      · exact hsmall [a, b] hd (by simp) (by simp) hdig
      · rcases rest3 with _ | ⟨e, rest4⟩
        · exact hsmall [a, b, c] hd (by simp) (by simp) hdig
        · by_cases hlen : rest4.length ≤ 2
          · have hr := formatPhone_eq_mid hd (by simp)
              (by simp only [List.length_cons]; omega)
            have ha := hdig a (by simp)
            have hb := hdig b (by simp)
            have hc := hdig c (by simp)
            have hrest : ∀ x ∈ e :: rest4, x.isDigit = true := fun x hx =>
              hdig x (List.mem_cons_of_mem a (List.mem_cons_of_mem b
                (List.mem_cons_of_mem c hx)))
            refine ⟨by rw [hr]; simp only [List.length_cons]; omega, ?_,
              ?_, fun _ => by rw [hr]; rfl⟩
            · rw [hr]
              exact iff_of_false (by simp)
                (fun hall => absurd (hnil.mpr hall) (by simp))
            · rw [hr]
              exact phoneCharsOk_mid ha hb hc hrest
          · rcases rest4 with _ | ⟨f, rest5⟩
            · simp at hlen
            · rcases rest5 with _ | ⟨g, rest6⟩
              · simp at hlen
              · rcases rest6 with _ | ⟨h7, rest7⟩
                · simp at hlen
                · have hr := formatPhone_eq_large hd
                  have ha := hdig a (by simp)
                  have hb := hdig b (by simp)
                  have hc := hdig c (by simp)
                  have he := hdig e (by simp)
                  have hf := hdig f (by simp)
                  have hg := hdig g (by simp)
                  have hh := hdig h7 (by simp)
                  have hrest : ∀ x ∈ rest7.take 2, x.isDigit = true := by
                    intro x hx
                    refine hdig x ?_
                    have hx7 := List.take_subset 2 rest7 hx
                    simp [hx7]
                  refine ⟨?_, ?_, ?_, fun _ => by rw [hr]; rfl⟩
                  · rw [hr]
                    simp only [List.length_cons, List.length_take]
                    omega
                  · rw [hr]
                    exact iff_of_false (by simp)
                      (fun hall => absurd (hnil.mpr hall) (by simp))
                  · rw [hr]
                    exact phoneCharsOk_large ha hb hc he hf hg hh hrest

theorem form_C10_witness :
    (formatPhone ("0501234567".toList)).length ≤ 12 ∧
    (formatPhone ("0501234567".toList) = [] ↔
      (∀ c ∈ "0501234567".toList, c.isDigit = false)) ∧
    phoneCharsOk 0 (formatPhone ("0501234567".toList)) = true ∧
    (formatPhone ("0501234567".toList) ≠ [] →
      (formatPhone ("0501234567".toList)).head? = some '0') :=
  form_C10 ("0501234567".toList)

end LandPage
